import Mathlib

/-!
Shallow embedding of the Blorb/IFF chunk parser and resource decoders
(`src/main.rs`) and verification of its specification.

The archive is modelled as a list of byte values (`File`).  The Rust
`File` cursor is modelled by an explicit position (`Nat`); a Rust
`f.read(&mut buf)` into a zero-initialised buffer of length `n` is
modelled by `readBytes`, which returns the bytes actually available
padded with zeros to length `n`, together with the advanced position
(the cursor moves only by the number of bytes actually read).

Rust panics (`unimplemented!`, `assert_eq!`, slice index out of
bounds) abort the whole process; they are modelled as the
`Failure.panic` error channel, distinct from the recoverable
`Err(ReadResult)` channel (`Failure.err`) which merely breaks the
iterate-and-decode loop in `main`.
-/

/-- A byte source: the archive's bytes in order.  Bytes are `Nat`s
(real files hold values `< 256`, but no definition depends on that). -/
abbrev File := List Nat

/-- Model of `f.read(&mut buffer)` with `buffer = [0u8; n]` at cursor
position `pos`: the available bytes, zero padded to length `n`, and the
new position (advanced by the number of bytes actually read). -/
def readBytes (f : File) (pos n : Nat) : List Nat × Nat :=
  let got := (f.drop pos).take n
  (got ++ List.replicate (n - got.length) 0, pos + got.length)

/-- Model of `read_type` from the source: read a 4-byte tag. -/
def read_type (f : File) (pos : Nat) : List Nat × Nat :=
  readBytes f pos 4

/-- Big-endian 32-bit assembly `(b0 << 24) | (b1 << 16) | (b2 << 8) | b3`
exactly as in `read_size`. -/
def beCombine (b0 b1 b2 b3 : Nat) : Nat :=
  (b0 <<< 24) ||| (b1 <<< 16) ||| (b2 <<< 8) ||| b3

/-- Big-endian value of a 4-byte buffer. -/
def beVal (b : List Nat) : Nat :=
  match b with
  | [b0, b1, b2, b3] => beCombine b0 b1 b2 b3
  | _ => 0

/-- Model of `read_size` from the source: read 4 bytes and assemble them
big-endian. -/
def read_size (f : File) (pos : Nat) : Nat × Nat :=
  let b := readBytes f pos 4
  (beVal b.1, b.2)

/-- Model of `ReadResult` from the source: the recoverable error type.  The
`String` built from the 4 raw bytes reinterpreted as characters is
modelled as the corresponding `List Char`. -/
inductive ReadResult where
  | InvalidResource : List Char → ReadResult
deriving DecidableEq, Repr

/-- Model of `ReadResult::invalid_resource`: each raw byte is reinterpreted as a
character (`*x as char`). -/
def ReadResult.invalid_resource (rsrc : List Nat) : ReadResult :=
  ReadResult.InvalidResource (rsrc.map Char.ofNat)

/-- Model of `ChunkType` from the source. -/
inductive ChunkType where
  | Pict
  | Sound
  | Data
  | Exec
deriving DecidableEq, Repr

/-- Model of `PictResource` from the source. -/
inductive PictResource where
  | Png : List Nat → PictResource
  | Jpeg : List Nat → PictResource
  | Rect : Nat → Nat → PictResource
deriving DecidableEq, Repr

/-- Model of `SoundResource` from the source. -/
inductive SoundResource where
  | Aiff : List Nat → SoundResource
  | Ogg : List Nat → SoundResource
  | Mod : List Nat → SoundResource
deriving DecidableEq, Repr

/-- Model of `DataResource` from the source. -/
inductive DataResource where
  | Text : List Nat → DataResource
  | Bina : List Int → DataResource
deriving DecidableEq, Repr

/-- Model of `ChunkResource` from the source. -/
inductive ChunkResource where
  | Pict : PictResource → ChunkResource
  | Exec : List Nat → ChunkResource
  | Sound : SoundResource → ChunkResource
  | Data : DataResource → ChunkResource
deriving DecidableEq, Repr

/-- Model of `ChunkInfo` from the source (the `data` field starts empty and is
never filled by the code under verification). -/
structure ChunkInfo where
  usage : ChunkType
  number : Nat
  start : Nat
  data : List Nat
deriving DecidableEq, Repr

/-- A Rust panic: `unimplemented!(tag)`, a failed `assert_eq!`, or a
slice index out of bounds.  A panic aborts the whole process. -/
inductive PanicMsg where
  | unimplementedTag : List Nat → PanicMsg
  | assertFailed : Nat → PanicMsg
  | indexOutOfBounds : PanicMsg
deriving DecidableEq, Repr

/-- Outcome channel of a decoder call: a recoverable `Err(ReadResult)`
(breaks the iteration loop) or a panic (aborts the process). -/
inductive Failure where
  | err : ReadResult → Failure
  | panic : PanicMsg → Failure
deriving DecidableEq, Repr

/-! Byte constants from the source. -/

def FORM : List Nat := [70, 79, 82, 77]
def IFRS : List Nat := [73, 70, 82, 83]
def RIDX : List Nat := [82, 73, 100, 120]
def PICT : List Nat := [80, 105, 99, 116]
def EXEC : List Nat := [69, 120, 101, 99]
def SND_ : List Nat := [83, 110, 100, 32]
def DATA : List Nat := [68, 97, 116, 97]
def JPEG : List Nat := [74, 80, 69, 71]
def PNG_ : List Nat := [80, 78, 71, 32]
def RECT : List Nat := [82, 101, 99, 116]
def OGGV : List Nat := [79, 71, 71, 86]
def AIFF : List Nat := [65, 73, 70, 70]
def MOD_ : List Nat := [77, 79, 68, 32]
def TEXT : List Nat := [84, 69, 88, 84]
def BINA : List Nat := [66, 73, 78, 65]

/-- The usage-tag dispatch of `read_resource_info`. -/
def usage_of (tag : List Nat) : Option ChunkType :=
  if tag = PICT then some ChunkType.Pict
  else if tag = SND_ then some ChunkType.Sound
  else if tag = DATA then some ChunkType.Data
  else if tag = EXEC then some ChunkType.Exec
  else none

/-- Model of `read_resource_info` from the source: read the 4-byte usage tag; an
unrecognized tag returns `Err` at once (number and offset unread),
otherwise read the big-endian number and start offset. -/
def read_resource_info (f : File) (pos : Nat) :
    Except ReadResult (ChunkInfo × Nat) :=
  let u := readBytes f pos 4
  match usage_of u.1 with
  | none => Except.error (ReadResult.invalid_resource u.1)
  | some usage =>
    let num := read_size f u.2
    let st := read_size f num.2
    Except.ok (⟨usage, num.1, st.1, []⟩, st.2)

/-- The TOC-building loop of `main` (`for _ in 0..resource_count`):
read `n` index entries; the first `Err` aborts the whole build. -/
def read_toc_entries (f : File) (pos : Nat) :
    Nat → Except ReadResult (List ChunkInfo × Nat)
  | 0 => Except.ok ([], pos)
  | n + 1 =>
    match read_resource_info f pos with
    | Except.error e => Except.error e
    | Except.ok (c, pos') =>
      match read_toc_entries f pos' n with
      | Except.error e => Except.error e
      | Except.ok (rest, pEnd) => Except.ok (c :: rest, pEnd)

/-- Structural failures of the header/index phase of `main` (each one
is `eprintln` + `exit(1)` in the source). -/
inductive ParseErr where
  | notIff
  | notBlorb
  | invalidBlorb
  | badEntry : ReadResult → ParseErr
deriving DecidableEq, Repr

/-- The successive header reads of `main`, in cursor order:
`file_type` (bytes 0-3 of the file). -/
def ftv (f : File) : List Nat × Nat := read_type f 0

/-- Header read `file_size`, read directly after the file type. -/
def fsv (f : File) : Nat × Nat := read_size f (ftv f).2

/-- Header read `form_type`, read directly after the file size. -/
def subv (f : File) : List Nat × Nat := read_type f (fsv f).2

/-- Header read `ridx_type`, read directly after the form type. -/
def ridxv (f : File) : List Nat × Nat := read_type f (subv f).2

/-- Header read `ridx_size`, read directly after the index tag. -/
def rsv (f : File) : Nat × Nat := read_size f (ridxv f).2

/-- Header read `resource_count`, read directly after the index size. -/
def cntv (f : File) : Nat × Nat := read_size f (rsv f).2

/-- The header-and-index phase of `main`: validate FORM / IFRS / RIdx,
read the index size and resource count, and build the table of
contents.  Returns (form size, RIdx size, resource count, TOC, final
position). -/
def parse_archive (f : File) :
    Except ParseErr (Nat × Nat × Nat × List ChunkInfo × Nat) :=
  if (ftv f).1 ≠ FORM then Except.error ParseErr.notIff
  else if (subv f).1 ≠ IFRS then Except.error ParseErr.notBlorb
  else if (ridxv f).1 ≠ RIDX then Except.error ParseErr.invalidBlorb
  else
    match read_toc_entries f (cntv f).2 (cntv f).1 with
    | Except.error e => Except.error (ParseErr.badEntry e)
    | Except.ok (toc, pEnd) =>
      Except.ok ((fsv f).1, (rsv f).1, (cntv f).1, toc, pEnd)

/-- Model of `read_pict` from the source.  Seeks to `offset`, reads the chunk
type tag and big-endian length, reads (and zero-pads) the payload, and
dispatches: the payload is read BEFORE the tag dispatch, so for `Rect`
the nested sub-length is read after the `chunk_len` payload bytes.  An
unknown tag hits `unimplemented!`; a sub-length other than 8 hits
`assert_eq!` — both are panics, not `Err` results. -/
def read_pict (f : File) (offset : Nat) :
    Except Failure (PictResource × Nat) :=
  let t := read_type f offset
  let s := read_size f t.2
  let d := readBytes f s.2 s.1
  if t.1 = JPEG then Except.ok (PictResource.Jpeg d.1, d.2)
  else if t.1 = PNG_ then Except.ok (PictResource.Png d.1, d.2)
  else if t.1 = RECT then
    let len := read_size f d.2
    if len.1 = 8 then
      let w := read_size f len.2
      let h := read_size f w.2
      Except.ok (PictResource.Rect w.1 h.1, h.2)
    else Except.error (Failure.panic (PanicMsg.assertFailed len.1))
  else Except.error (Failure.panic (PanicMsg.unimplementedTag t.1))

/-- Model of `read_sound` from the source. -/
def read_sound (f : File) (offset : Nat) :
    Except Failure (SoundResource × Nat) :=
  let t := read_type f offset
  let s := read_size f t.2
  let d := readBytes f s.2 s.1
  if t.1 = OGGV then Except.ok (SoundResource.Ogg d.1, d.2)
  else if t.1 = MOD_ then Except.ok (SoundResource.Mod d.1, d.2)
  else if t.1 = AIFF then Except.ok (SoundResource.Aiff d.1, d.2)
  else Except.error (Failure.err (ReadResult.invalid_resource t.1))

/-- The sign-magnitude word decode of the BINA arm of `read_data`:
`lower_31 = x & 0x7FFF_FFFF`, `sign_bit = x & 0x8000_0000`,
value `= -(lower_31)` if the sign bit is set, else `lower_31`. -/
def signMagnitude (xdata : Nat) : Int :=
  let lower31 := xdata &&& 0x7FFFFFFF
  let signBit := xdata &&& 0x80000000
  if signBit ≠ 0 then -(lower31 : Int) else (lower31 : Int)

/-- Rust `data.chunks(4)`: split into consecutive chunks of 4 bytes;
the last chunk is shorter when the length is not a multiple of 4, and
an empty slice yields no chunks. -/
def chunks4 : List Nat → List (List Nat)
  | [] => []
  | [a] => [[a]]
  | [a, b] => [[a, b]]
  | [a, b, c] => [[a, b, c]]
  | a :: b :: c :: d :: rest => [a, b, c, d] :: chunks4 rest

/-- One iteration of the BINA loop: index the chunk at 0..3 (a slice
index out of bounds is a panic) and decode sign-magnitude. -/
def dec_word (i : List Nat) : Except PanicMsg Int :=
  match i[0]?, i[1]?, i[2]?, i[3]? with
  | some b0, some b1, some b2, some b3 =>
    Except.ok (signMagnitude (beCombine b0 b1 b2 b3))
  | _, _, _, _ => Except.error PanicMsg.indexOutOfBounds

/-- The BINA loop of `read_data`: decode each 4-byte chunk in order,
pushing results; a panic mid-loop aborts. -/
def bina_loop : List (List Nat) → Except PanicMsg (List Int)
  | [] => Except.ok []
  | c :: rest =>
    match dec_word c with
    | Except.error p => Except.error p
    | Except.ok w =>
      match bina_loop rest with
      | Except.error p => Except.error p
      | Except.ok ws => Except.ok (w :: ws)

/-- The full BINA payload decode: chunk the payload bytes into 4-byte
groups and run the loop. -/
def bina_words (data : List Nat) : Except PanicMsg (List Int) :=
  bina_loop (chunks4 data)

/-- Model of `read_data` from the source. -/
def read_data (f : File) (offset : Nat) :
    Except Failure (DataResource × Nat) :=
  let t := read_type f offset
  let s := read_size f t.2
  let d := readBytes f s.2 s.1
  if t.1 = TEXT then Except.ok (DataResource.Text d.1, d.2)
  else if t.1 = BINA then
    match bina_words d.1 with
    | Except.error p => Except.error (Failure.panic p)
    | Except.ok ws => Except.ok (DataResource.Bina ws, d.2)
  else Except.error (Failure.err (ReadResult.invalid_resource t.1))

/-- Model of `read_chunk` from the source: dispatch on the entry's usage kind.
`Exec` performs no seek and no read: the cursor position is returned
unchanged.  The other kinds seek to `chunk.start`, so the incoming
position is irrelevant to them. -/
def read_chunk (f : File) (pos : Nat) (chunk : ChunkInfo) :
    Except Failure (ChunkResource × Nat) :=
  match chunk.usage with
  | ChunkType.Pict =>
    match read_pict f chunk.start with
    | Except.error e => Except.error e
    | Except.ok (p, pos') => Except.ok (ChunkResource.Pict p, pos')
  | ChunkType.Exec => Except.ok (ChunkResource.Exec [], pos)
  | ChunkType.Sound =>
    match read_sound f chunk.start with
    | Except.error e => Except.error e
    | Except.ok (s, pos') => Except.ok (ChunkResource.Sound s, pos')
  | ChunkType.Data =>
    match read_data f chunk.start with
    | Except.error e => Except.error e
    | Except.ok (d, pos') => Except.ok (ChunkResource.Data d, pos')

/-- The iterate-and-decode loop of `main` (`for t in &mut toc`):
successfully decoded entries are collected in order; the first
`Err(_)` breaks the loop (recorded as `some e`; later entries are
never attempted); a panic aborts the process. -/
def process_toc (f : File) (pos : Nat) :
    List ChunkInfo →
    Except PanicMsg (List (ChunkInfo × ChunkResource) × Option ReadResult × Nat)
  | [] => Except.ok ([], none, pos)
  | t :: rest =>
    match read_chunk f pos t with
    | Except.ok (r, pos') =>
      match process_toc f pos' rest with
      | Except.ok (results, stopped, pEnd) =>
        Except.ok ((t, r) :: results, stopped, pEnd)
      | Except.error p => Except.error p
    | Except.error (Failure.err e) => Except.ok ([], some e, pos)
    | Except.error (Failure.panic p) => Except.error p

/-- Position of the k-th index entry during TOC construction: thread
`read_resource_info` through the first k entries. -/
def entry_pos (f : File) : Nat → Nat → Option Nat
  | pos, 0 => some pos
  | pos, k + 1 =>
    match read_resource_info f pos with
    | Except.ok x => entry_pos f x.2 k
    | Except.error _ => none

/-! ## Helper lemmas about the byte-cursor primitives -/

/-- The buffer returned by `readBytes` always has exactly the requested
length: a short read pads with the buffer's zero initialisation. -/
theorem readBytes_fst_length (f : File) (pos n : Nat) :
    ((readBytes f pos n).1).length = n := by
  simp only [readBytes, List.length_append, List.length_take,
    List.length_drop, List.length_replicate]
  omega

/-- When the file supplies all `n` requested bytes, the cursor advances
by exactly `n`. -/
theorem readBytes_snd_full (f : File) (pos n : Nat)
    (h : pos + n ≤ f.length) :
    (readBytes f pos n).2 = pos + n := by
  simp only [readBytes, List.length_take, List.length_drop]
  omega

/-- Positions of the buffer beyond the bytes the file can supply hold
the zero initialisation. -/
theorem readBytes_padding (f : File) (pos n i : Nat)
    (hi : f.length ≤ pos + i) (hn : i < n) :
    ((readBytes f pos n).1)[i]? = some 0 := by
  have hgot : ((f.drop pos).take n).length ≤ i := by
    simp only [List.length_take, List.length_drop]; omega
  simp only [readBytes]
  rw [List.getElem?_append_right hgot, List.getElem?_replicate,
    if_pos (by simp only [List.length_take, List.length_drop]; omega)]

/-! ## Claim theorems -/

/-- C1: every 4-byte big-endian word of a BINA payload is decoded as
sign-magnitude: bit 31 is the sign flag, bits 0-30 are the magnitude,
and the decoded value is `-(magnitude)` when the sign bit is set, else
`magnitude`; in particular the BINA decoder maps the words
`0x00000001, 0x80000001, 0x7FFFFFFF, 0xFFFFFFFF, 0x00000000,
0x80000000` to `1, -1, 2147483647, -2147483647, 0, 0`. -/
theorem c1_sign_magnitude_decode :
    (∀ w : Nat, signMagnitude w =
      if w.testBit 31 then -((w % 2 ^ 31 : Nat) : Int)
      else ((w % 2 ^ 31 : Nat) : Int)) ∧
    (∀ b0 b1 b2 b3 : Nat,
      dec_word [b0, b1, b2, b3] =
        Except.ok (signMagnitude (beCombine b0 b1 b2 b3))) ∧
    bina_words [0,0,0,1, 128,0,0,1, 127,255,255,255, 255,255,255,255,
                0,0,0,0, 128,0,0,0]
      = Except.ok [1, -1, 2147483647, -2147483647, 0, 0] := by
  refine ⟨?_, fun b0 b1 b2 b3 => rfl, rfl⟩
  intro w
  have h1 : w &&& 0x7FFFFFFF = w % 2 ^ 31 := by
    rw [show (0x7FFFFFFF : Nat) = 2 ^ 31 - 1 by norm_num]
    exact Nat.and_pow_two_sub_one_eq_mod w 31
  have h2 : w &&& 0x80000000 = (w.testBit 31).toNat * 2 ^ 31 := by
    rw [show (0x80000000 : Nat) = 2 ^ 31 by norm_num]
    exact Nat.and_two_pow w 31
  simp only [signMagnitude, h1, h2]
  cases hb : w.testBit 31 <;> simp

/-- C2 (code evaluation at the failing input): a chunk read that finds
fewer than the declared `L` bytes does NOT fail: the sound and image
readers return success with the payload zero-padded to length `L`.
Here `L = 4` but only the two bytes `9, 9` follow the length field. -/
theorem c2_short_read_succeeds_padded :
    read_sound [65,73,70,70, 0,0,0,4, 9,9] 0
      = Except.ok (SoundResource.Aiff [9, 9, 0, 0], 10) ∧
    read_pict [74,80,69,71, 0,0,0,4, 9,9] 0
      = Except.ok (PictResource.Jpeg [9, 9, 0, 0], 10) :=
  ⟨rfl, rfl⟩

/-- C6 (code evaluation at the failing input): an image chunk whose
type tag is `ABCD` makes `read_pict` hit `unimplemented!` — a panic
that aborts the process — unlike the sound decoder, which returns the
recoverable `Err(InvalidResource)` on the same unknown tag. -/
theorem c6_unknown_pict_tag_panics :
    read_pict [65,66,67,68, 0,0,0,0] 0
      = Except.error (Failure.panic (PanicMsg.unimplementedTag [65,66,67,68])) ∧
    read_sound [65,66,67,68, 0,0,0,0] 0
      = Except.error (Failure.err
          (ReadResult.InvalidResource ['A', 'B', 'C', 'D'])) :=
  ⟨rfl, rfl⟩

/-- A BINA payload whose length is not a multiple of 4 always drives
the chunk loop into an out-of-bounds index on the short final chunk. -/
theorem bina_words_remainder (d : List Nat) (h : d.length % 4 ≠ 0) :
    bina_words d = Except.error PanicMsg.indexOutOfBounds := by
  induction d using chunks4.induct with
  | case1 => simp at h
  | case2 a => rfl
  | case3 a b => rfl
  | case4 a b c => rfl
  | case5 a b c e rest ih =>
    have hr : rest.length % 4 ≠ 0 := by
      simp only [List.length_cons] at h; omega
    have hrest := ih hr
    simp only [bina_words] at hrest
    simp [bina_words, chunks4, bina_loop, dec_word, hrest]

/-- C8 (counterexample): a 5-byte BINA payload does NOT silently drop
the trailing remainder byte: `chunks(4)` yields a short final chunk
whose indexing `i[1]`..`i[3]` is out of bounds, a panic.  The decoder
neither returns the complete-word result `[1]` nor any result at all,
both for the bare payload decode and for a full BINA chunk read. -/
theorem c8_counterexample :
    bina_words [0, 0, 0, 1, 99] = Except.error PanicMsg.indexOutOfBounds ∧
    read_data [66,73,78,65, 0,0,0,5, 0,0,0,1, 99] 0
      = Except.error (Failure.panic PanicMsg.indexOutOfBounds) ∧
    bina_words [0, 0, 0, 1, 99] ≠ Except.ok [1] := by
  refine ⟨rfl, rfl, ?_⟩
  intro h
  rw [show bina_words [0, 0, 0, 1, 99]
        = Except.error PanicMsg.indexOutOfBounds from rfl] at h
  exact Except.noConfusion h

/-- C8 (amended): for every BINA payload whose declared byte length is
not a multiple of 4, the Data decoder panics with an index-out-of-bounds
on the incomplete final chunk — the remainder is not silently dropped
and no integer list is returned; the process aborts. -/
theorem c8_bina_remainder_panics :
    (∀ d : List Nat, d.length % 4 ≠ 0 →
      bina_words d = Except.error PanicMsg.indexOutOfBounds) ∧
    (∀ (f : File) (offset : Nat),
      (read_type f offset).1 = BINA →
      (read_size f (read_type f offset).2).1 % 4 ≠ 0 →
      read_data f offset
        = Except.error (Failure.panic PanicMsg.indexOutOfBounds)) := by
  refine ⟨bina_words_remainder, ?_⟩
  intro f offset ht hL
  have hB : BINA ≠ TEXT := by decide
  have hlen : ((readBytes f (read_size f (read_type f offset).2).2
      (read_size f (read_type f offset).2).1).1).length % 4 ≠ 0 := by
    rw [readBytes_fst_length]; exact hL
  have hbw := bina_words_remainder _ hlen
  simp only [read_data, ht, hB, if_false, if_true, if_pos, hbw]

/-- C8 (witness for the amended theorem). -/
theorem c8_witness :
    ([99] : List Nat).length % 4 ≠ 0 ∧
    bina_words [99] = Except.error PanicMsg.indexOutOfBounds :=
  ⟨by decide, c8_bina_remainder_panics.1 [99] (by decide)⟩

/-- An unrecognized usage tag makes `read_resource_info` return the
`InvalidResource` error built from exactly the 4 raw tag bytes. -/
theorem read_resource_info_unrecognized (f : File) (p : Nat) (t : List Nat)
    (ht : (readBytes f p 4).1 = t)
    (h1 : t ≠ PICT) (h2 : t ≠ SND_) (h3 : t ≠ DATA) (h4 : t ≠ EXEC) :
    read_resource_info f p
      = Except.error (ReadResult.invalid_resource t) := by
  have hu : usage_of t = none := by
    simp [usage_of, h1, h2, h3, h4]
  simp only [read_resource_info, ht, hu]

/-- If the k-th index entry (all earlier ones parsing fine) fails with
error `e`, the whole `n`-entry TOC build fails with `e`. -/
theorem read_toc_entries_abort (f : File) :
    ∀ (k pos n p : Nat) (e : ReadResult), k < n →
    entry_pos f pos k = some p →
    read_resource_info f p = Except.error e →
    read_toc_entries f pos n = Except.error e := by
  intro k
  induction k with
  | zero =>
    intro pos n p e hk hp he
    cases n with
    | zero => omega
    | succ m =>
      simp only [entry_pos, Option.some_inj] at hp
      subst hp
      simp only [read_toc_entries, he]
  | succ k ih =>
    intro pos n p e hk hp he
    cases n with
    | zero => omega
    | succ m =>
      simp only [entry_pos] at hp
      cases hr : read_resource_info f pos with
      | error e' => rw [hr] at hp; simp at hp
      | ok x =>
        rw [hr] at hp
        obtain ⟨c, pos'⟩ := x
        have habort := ih pos' m p e (by omega) hp he
        simp only [read_toc_entries, hr, habort]

/-- C3: during index parsing, an index entry whose 4-byte usage tag is
none of `Pict`, `Snd `, `Data`, `Exec` makes the entry read fail with
`InvalidResource` carrying exactly the original 4 raw tag bytes
reinterpreted as characters, and the whole TOC build aborts with that
error — no partial TOC is returned. -/
theorem c3_unrecognized_usage_tag_aborts (f : File)
    (pos n k p : Nat) (t : List Nat)
    (hk : k < n) (hp : entry_pos f pos k = some p)
    (ht : (readBytes f p 4).1 = t)
    (h1 : t ≠ PICT) (h2 : t ≠ SND_) (h3 : t ≠ DATA) (h4 : t ≠ EXEC) :
    read_resource_info f p
      = Except.error (ReadResult.InvalidResource (t.map Char.ofNat)) ∧
    read_toc_entries f pos n
      = Except.error (ReadResult.InvalidResource (t.map Char.ofNat)) := by
  have hrri := read_resource_info_unrecognized f p t ht h1 h2 h3 h4
  exact ⟨hrri, read_toc_entries_abort f k pos n p _ hk hp hrri⟩

/-- C3 (witness): a single index entry tagged `ABCD` at position 0. -/
theorem c3_witness :
    (0 : Nat) < 1 ∧
    entry_pos [65,66,67,68, 0,0,0,1, 0,0,0,2] 0 0 = some 0 ∧
    read_toc_entries [65,66,67,68, 0,0,0,1, 0,0,0,2] 0 1
      = Except.error (ReadResult.InvalidResource ['A', 'B', 'C', 'D']) := by
  refine ⟨by decide, rfl, ?_⟩
  have h := c3_unrecognized_usage_tag_aborts
    [65,66,67,68, 0,0,0,1, 0,0,0,2] 0 1 0 0 [65, 66, 67, 68]
    (by decide) rfl rfl (by decide) (by decide) (by decide) (by decide)
  have h2 := h.2
  rw [show ([65, 66, 67, 68] : List Nat).map Char.ofNat
        = ['A', 'B', 'C', 'D'] by decide] at h2
  exact h2

/-- A successful TOC build returns exactly as many entries as
requested. -/
theorem read_toc_entries_length (f : File) :
    ∀ (n pos : Nat) (toc : List ChunkInfo) (pEnd : Nat),
    read_toc_entries f pos n = Except.ok (toc, pEnd) →
    toc.length = n := by
  intro n
  induction n with
  | zero =>
    intro pos toc pEnd h
    simp only [read_toc_entries] at h
    cases h
    rfl
  | succ m ih =>
    intro pos toc pEnd h
    simp only [read_toc_entries] at h
    split at h
    · cases h
    · split at h
      · cases h
      · rename_i hrec
        cases h
        simp [ih _ _ _ hrec]

/-- A successful TOC build is in file order: its k-th entry is exactly
the entry parsed at the k-th index-record position. -/
theorem read_toc_entries_get (f : File) :
    ∀ (n pos : Nat) (toc : List ChunkInfo) (pEnd : Nat),
    read_toc_entries f pos n = Except.ok (toc, pEnd) →
    ∀ k, k < n → ∃ q c p', entry_pos f pos k = some q ∧
      read_resource_info f q = Except.ok (c, p') ∧ toc[k]? = some c := by
  intro n
  induction n with
  | zero => intro pos toc pEnd h k hk; omega
  | succ m ih =>
    intro pos toc pEnd h k hk
    simp only [read_toc_entries] at h
    split at h
    · cases h
    · rename_i c pos' hr
      split at h
      · cases h
      · rename_i rest pEnd' hrec
        cases h
        cases k with
        | zero =>
          exact ⟨pos, c, pos', rfl, hr, by simp⟩
        | succ j =>
          obtain ⟨q, c', p', hq, hc', hg⟩ :=
            ih pos' rest _ hrec j (by omega)
          refine ⟨q, c', p', ?_, hc', ?_⟩
          · simp only [entry_pos, hr]
            exact hq
          · simpa using hg


/-- C4: for every archive whose header validates (FORM outer tag, IFRS
subtype, RIdx index tag) and whose declared index entries all carry
recognized usage tags (so that the TOC build succeeds), `parse_archive`
succeeds and the table of contents holds exactly the declared resource
count `(cntv f).1` of entries, in file order (the k-th TOC entry is the
one parsed at the k-th index-record position); a declared count of zero
yields an empty TOC, on which the iterate-and-decode phase attempts no
per-resource decode at all (its result is fixed, whatever the file and
cursor). -/
theorem c4_toc_has_declared_count (f : File)
    (toc : List ChunkInfo) (pEnd : Nat)
    (hdr1 : (ftv f).1 = FORM) (hdr2 : (subv f).1 = IFRS)
    (hdr3 : (ridxv f).1 = RIDX)
    (h : read_toc_entries f (cntv f).2 (cntv f).1 = Except.ok (toc, pEnd)) :
    parse_archive f
      = Except.ok ((fsv f).1, (rsv f).1, (cntv f).1, toc, pEnd) ∧
    toc.length = (cntv f).1 ∧
    (∀ k, k < (cntv f).1 → ∃ q c p', entry_pos f (cntv f).2 k = some q ∧
      read_resource_info f q = Except.ok (c, p') ∧ toc[k]? = some c) ∧
    ((cntv f).1 = 0 → toc = [] ∧
      ∀ (g : File) (q : Nat),
        process_toc g q toc = Except.ok ([], none, q)) := by
  refine ⟨?_, read_toc_entries_length f _ _ _ _ h,
    read_toc_entries_get f _ _ _ _ h, ?_⟩
  · unfold parse_archive
    rw [if_neg (not_not_intro hdr1), if_neg (not_not_intro hdr2),
      if_neg (not_not_intro hdr3), h]
  · intro hn
    have hlen : toc.length = 0 := by
      rw [read_toc_entries_length f _ _ _ _ h, hn]
    have htoc : toc = [] := List.length_eq_zero.mp hlen
    subst htoc
    exact ⟨rfl, fun g q => rfl⟩

/-- C4 (witness): the minimal valid archive — FORM, IFRS, RIdx, count
zero — parses to an empty TOC and triggers no decode. -/
theorem c4_witness :
    (ftv [70,79,82,77, 0,0,0,0, 73,70,82,83,
          82,73,100,120, 0,0,0,0, 0,0,0,0]).1 = FORM ∧
    parse_archive [70,79,82,77, 0,0,0,0, 73,70,82,83,
                   82,73,100,120, 0,0,0,0, 0,0,0,0]
      = Except.ok (0, 0, 0, ([] : List ChunkInfo), 24) ∧
    process_toc [1, 2, 3] 7 [] = Except.ok ([], none, 7) := by
  refine ⟨rfl, ?_, ?_⟩
  · exact (c4_toc_has_declared_count
      [70,79,82,77, 0,0,0,0, 73,70,82,83, 82,73,100,120, 0,0,0,0, 0,0,0,0]
      [] 24 rfl rfl rfl rfl).1
  · exact ((c4_toc_has_declared_count
      [70,79,82,77, 0,0,0,0, 73,70,82,83, 82,73,100,120, 0,0,0,0, 0,0,0,0]
      [] 24 rfl rfl rfl rfl).2.2.2 rfl).2 [1, 2, 3] 7

/-- C5: if every entry of the prefix `pre` decodes successfully
(results `results`, cursor at `pMid`) and the next entry `bad` fails
with a recoverable decode error `e`, the whole iterate-and-decode pass
over `pre ++ bad :: post` returns exactly the retained `results`
together with the stopping error — whatever `post` holds, its entries
are never attempted (the outcome does not depend on `post`). -/
theorem c5_decode_error_stops_iteration (f : File)
    (pre : List ChunkInfo) (bad : ChunkInfo) (post : List ChunkInfo)
    (pos pMid : Nat) (results : List (ChunkInfo × ChunkResource))
    (e : ReadResult)
    (hpre : process_toc f pos pre = Except.ok (results, none, pMid))
    (hbad : read_chunk f pMid bad = Except.error (Failure.err e)) :
    process_toc f pos (pre ++ bad :: post)
      = Except.ok (results, some e, pMid) := by
  induction pre generalizing pos results with
  | nil =>
    simp only [process_toc, Except.ok.injEq, Prod.mk.injEq] at hpre
    obtain ⟨h1, _, h3⟩ := hpre
    subst h1 h3
    simp only [List.nil_append, process_toc, hbad]
  | cons t rest ih =>
    simp only [process_toc] at hpre
    split at hpre
    · rename_i r pos' hr
      split at hpre
      · rename_i res' stopped pEnd hrec
        simp only [Except.ok.injEq, Prod.mk.injEq] at hpre
        obtain ⟨h1, h2, h3⟩ := hpre
        subst h1 h3
        have hrest := ih pos' res' (by rw [hrec, h2])
        simp only [List.cons_append, process_toc, hr, List.append_eq, hrest]
      · cases hpre
    · cases hpre
    · cases hpre

/-- C5 (witness): a TEXT data chunk at offset 0 decodes, a sound chunk
at offset 10 carries the unknown tag `XXXX` and errors, and a third
entry is never attempted: the pass keeps entry 1's decoded content and
stops with entry 2's error. -/
theorem c5_witness :
    process_toc ([84,69,88,84, 0,0,0,2, 65,66] ++ [88,88,88,88, 0,0,0,0])
        0
        ([⟨ChunkType.Data, 1, 0, []⟩]
          ++ ⟨ChunkType.Sound, 2, 10, []⟩ :: [⟨ChunkType.Data, 3, 0, []⟩])
      = Except.ok
          ([(⟨ChunkType.Data, 1, 0, []⟩,
             ChunkResource.Data (DataResource.Text [65, 66]))],
           some (ReadResult.InvalidResource ['X', 'X', 'X', 'X']), 10) := by
  exact c5_decode_error_stops_iteration
    ([84,69,88,84, 0,0,0,2, 65,66] ++ [88,88,88,88, 0,0,0,0])
    [⟨ChunkType.Data, 1, 0, []⟩] ⟨ChunkType.Sound, 2, 10, []⟩
    [⟨ChunkType.Data, 3, 0, []⟩] 0 10
    [(⟨ChunkType.Data, 1, 0, []⟩,
      ChunkResource.Data (DataResource.Text [65, 66]))]
    (ReadResult.InvalidResource ['X', 'X', 'X', 'X']) rfl rfl

/-- C10: decoding an Executable-kind TOC entry always succeeds with an
empty byte vector, performs no seek or read (the cursor position is
returned unchanged and the file content is irrelevant), never consults
the entry's stored offset (any `start` value gives the same result),
and never stops the iterate-and-decode phase (the pass over
`chunk :: rest` always continues into `rest`). -/
theorem c10_exec_entry_reads_nothing (f : File) (pos : Nat)
    (chunk : ChunkInfo) (h : chunk.usage = ChunkType.Exec) :
    read_chunk f pos chunk = Except.ok (ChunkResource.Exec [], pos) ∧
    (∀ (s : Nat) (g : File),
      read_chunk g pos { chunk with start := s }
        = Except.ok (ChunkResource.Exec [], pos)) ∧
    (∀ rest, process_toc f pos (chunk :: rest)
      = match process_toc f pos rest with
        | Except.ok (results, stopped, pEnd) =>
          Except.ok ((chunk, ChunkResource.Exec []) :: results, stopped, pEnd)
        | Except.error p => Except.error p) := by
  refine ⟨by simp only [read_chunk, h], fun s g => by simp only [read_chunk, h], fun rest => ?_⟩
  simp only [process_toc, read_chunk, h]

/-- C10 (witness): an Executable entry with offset 99 against an empty
file at cursor position 5. -/
theorem c10_witness :
    (⟨ChunkType.Exec, 7, 99, []⟩ : ChunkInfo).usage = ChunkType.Exec ∧
    read_chunk [] 5 ⟨ChunkType.Exec, 7, 99, []⟩
      = Except.ok (ChunkResource.Exec [], 5) :=
  ⟨rfl, (c10_exec_entry_reads_nothing [] 5 ⟨ChunkType.Exec, 7, 99, []⟩ rfl).1⟩

/-- C9: every byte-carrying decode (Jpeg, Png, Aiff, Ogg, Mod, Text)
returns a payload whose length is exactly the declared big-endian
length field `L`, however many bytes the cursor actually supplies: the
payload is always the `L`-byte zero-initialised buffer, whose positions
beyond the available bytes stay zero instead of the vector being
shortened. -/
theorem c9_payload_length_is_declared (f : File) (offset L p2 : Nat)
    (hL : read_size f (read_type f offset).2 = (L, p2)) :
    ((readBytes f p2 L).1).length = L ∧
    (∀ i, f.length ≤ p2 + i → i < L →
      ((readBytes f p2 L).1)[i]? = some 0) ∧
    (∀ d q, read_pict f offset = Except.ok (PictResource.Jpeg d, q) →
      d = (readBytes f p2 L).1) ∧
    (∀ d q, read_pict f offset = Except.ok (PictResource.Png d, q) →
      d = (readBytes f p2 L).1) ∧
    (∀ d q, read_sound f offset = Except.ok (SoundResource.Aiff d, q) →
      d = (readBytes f p2 L).1) ∧
    (∀ d q, read_sound f offset = Except.ok (SoundResource.Ogg d, q) →
      d = (readBytes f p2 L).1) ∧
    (∀ d q, read_sound f offset = Except.ok (SoundResource.Mod d, q) →
      d = (readBytes f p2 L).1) ∧
    (∀ d q, read_data f offset = Except.ok (DataResource.Text d, q) →
      d = (readBytes f p2 L).1) := by
  refine ⟨readBytes_fst_length f p2 L,
    fun i hi hn => readBytes_padding f p2 L i hi hn,
    ?_, ?_, ?_, ?_, ?_, ?_⟩
  · intro d q h
    simp only [read_pict, hL] at h
    split at h
    · simp_all
    · split at h
      · simp_all
      · split at h
        · split at h
          · simp_all
          · simp_all
        · simp_all
  · intro d q h
    simp only [read_pict, hL] at h
    split at h
    · simp_all
    · split at h
      · simp_all
      · split at h
        · split at h
          · simp_all
          · simp_all
        · simp_all
  · intro d q h
    simp only [read_sound, hL] at h
    split at h
    · simp_all
    · split at h
      · simp_all
      · split at h
        · simp_all
        · simp_all
  · intro d q h
    simp only [read_sound, hL] at h
    split at h
    · simp_all
    · split at h
      · simp_all
      · split at h
        · simp_all
        · simp_all
  · intro d q h
    simp only [read_sound, hL] at h
    split at h
    · simp_all
    · split at h
      · simp_all
      · split at h
        · simp_all
        · simp_all
  · intro d q h
    simp only [read_data, hL] at h
    split at h
    · simp_all
    · split at h
      · split at h
        · simp_all
        · simp_all
      · simp_all

/-- C9 (witness): a JPEG chunk declaring `L = 3` with a single payload
byte available decodes to the 3-byte zero-padded payload `[9, 0, 0]`. -/
theorem c9_witness :
    read_size [74,80,69,71, 0,0,0,3, 9]
        (read_type [74,80,69,71, 0,0,0,3, 9] 0).2 = (3, 8) ∧
    ((readBytes [74,80,69,71, 0,0,0,3, 9] 8 3).1).length = 3 ∧
    ((readBytes [74,80,69,71, 0,0,0,3, 9] 8 3).1)[2]? = some 0 := by
  refine ⟨rfl, ?_, ?_⟩
  · exact (c9_payload_length_is_declared
      [74,80,69,71, 0,0,0,3, 9] 0 3 8 rfl).1
  · exact (c9_payload_length_is_declared
      [74,80,69,71, 0,0,0,3, 9] 0 3 8 rfl).2.1 2 (by decide) (by decide)

/-- C7 (counterexample): a Rect image chunk declaring outer length
`L = 4` with payload bytes `1,2,3,4`.  The 32-bit word immediately
following the outer length field (file position 8) is `0x01020304`,
not 8, so by the claim the decode would have to abort; instead
`read_pict` succeeds with `Rect 5 6`, because the sub-length it
actually checks is read only after the `L` payload bytes, at file
position 12. -/
theorem c7_counterexample :
    read_pict [82,101,99,116, 0,0,0,4, 1,2,3,4,
               0,0,0,8, 0,0,0,5, 0,0,0,6] 0
      = Except.ok (PictResource.Rect 5 6, 24) ∧
    (read_size [82,101,99,116, 0,0,0,4, 1,2,3,4,
                0,0,0,8, 0,0,0,5, 0,0,0,6] 8).1 = 16909060 ∧
    (16909060 : Nat) ≠ 8 ∧
    (read_size [82,101,99,116, 0,0,0,4, 1,2,3,4,
                0,0,0,8, 0,0,0,5, 0,0,0,6] 12).1 = 8 :=
  ⟨rfl, rfl, by decide, rfl⟩

/-- C7 (amended): on a Rect-tagged image chunk with declared outer
length `L` (all bytes available), `read_pict` first reads and discards
the `L` payload bytes and only then reads the nested sub-length — at
position `offset + 8 + L`, not immediately after the length field;
it aborts by panic (`assert_eq!`) when that word is not exactly 8, and
otherwise returns `PlaceholderRect` of the two following big-endian
32-bit fields, taking no payload bytes from the outer `L` as image
bytes. -/
theorem c7_rect_sublength_after_payload (f : File) (offset L : Nat)
    (ht : (read_type f offset).1 = RECT)
    (hL : (read_size f (offset + 4)).1 = L)
    (hlen : offset + 20 + L ≤ f.length) :
    ((read_size f (offset + 8 + L)).1 ≠ 8 →
      read_pict f offset = Except.error (Failure.panic
        (PanicMsg.assertFailed (read_size f (offset + 8 + L)).1))) ∧
    ((read_size f (offset + 8 + L)).1 = 8 →
      read_pict f offset = Except.ok
        (PictResource.Rect (read_size f (offset + 12 + L)).1
          (read_size f (offset + 16 + L)).1, offset + 20 + L)) := by
  have hp1 : (read_type f offset).2 = offset + 4 :=
    readBytes_snd_full f offset 4 (by omega)
  have hs2 : (read_size f (offset + 4)).2 = offset + 8 := by
    simp only [read_size]
    rw [readBytes_snd_full f (offset + 4) 4 (by omega)]
  have hd2 : (readBytes f (offset + 8) L).2 = offset + 8 + L :=
    readBytes_snd_full f (offset + 8) L (by omega)
  have hsl2 : (read_size f (offset + 8 + L)).2 = offset + 12 + L := by
    simp only [read_size]
    rw [readBytes_snd_full f (offset + 8 + L) 4 (by omega)]
    omega
  have hw2 : (read_size f (offset + 12 + L)).2 = offset + 16 + L := by
    simp only [read_size]
    rw [readBytes_snd_full f (offset + 12 + L) 4 (by omega)]
    omega
  have hh2 : (read_size f (offset + 16 + L)).2 = offset + 20 + L := by
    simp only [read_size]
    rw [readBytes_snd_full f (offset + 16 + L) 4 (by omega)]
    omega
  constructor
  · intro hsl
    simp only [read_pict, hp1, hL, hs2, hd2, hsl2, ht]
    rw [if_pos trivial, if_neg hsl,
      if_neg (show ¬(RECT = JPEG) by decide),
      if_neg (show ¬(RECT = PNG_) by decide)]
  · intro hsl
    simp only [read_pict, hp1, hL, hs2, hd2, hsl2, hw2, hh2, ht]
    rw [if_pos trivial, if_pos hsl,
      if_neg (show ¬(RECT = JPEG) by decide),
      if_neg (show ¬(RECT = PNG_) by decide)]

/-- C7 (witness for the amended theorem): the counterexample file,
whose sub-length word at position `8 + L = 12` is 8, decodes to
`Rect 5 6`. -/
theorem c7_witness :
    (read_type [82,101,99,116, 0,0,0,4, 1,2,3,4,
                0,0,0,8, 0,0,0,5, 0,0,0,6] 0).1 = RECT ∧
    read_pict [82,101,99,116, 0,0,0,4, 1,2,3,4,
               0,0,0,8, 0,0,0,5, 0,0,0,6] 0
      = Except.ok (PictResource.Rect 5 6, 24) :=
  ⟨rfl,
    (c7_rect_sublength_after_payload
      [82,101,99,116, 0,0,0,4, 1,2,3,4, 0,0,0,8, 0,0,0,5, 0,0,0,6]
      0 4 rfl rfl (by decide)).2 rfl⟩
